import Mathlib

/-!
# Verification of the docker-machine VM lifecycle core

Shallow embedding of the provider drivers of `khulnasoft/docker-machine`
(the Google Compute Engine driver `drivers/google/{google.go,compute_util.go}`
and the Amazon EC2 driver `drivers/amazonec2/amazonec2.go`) together with
proofs about the state normalizer, the security reconcilers, the operation
poller, the create/remove orchestration and the address cache.

External collaborators (the GCE/EC2 API clients, the filesystem, the
`cenkalti/backoff` library) are modelled as explicit inputs: every backend
call result the code inspects is a parameter of the embedded function, and
functions that mutate backend state return the new state together with a
count (or trace) of the mutating calls they issued.
-/

namespace DockerMachine

/-- Canonical lifecycle enumeration `state.State` from
`libmachine/state` used by both drivers: `None`, `Starting`, `Running`,
`Stopping`, `Stopped`, `Error`. -/
inductive MachineState where
  | none
  | starting
  | running
  | stopping
  | stopped
  | error
deriving DecidableEq, Repr

namespace Google

/-- `Driver.GetState` of the Google driver (`google.go`).

`instance_ = Option.none` models `c.instance()` returning a nil instance;
`instance_ = some status` models an instance whose `Status` field is
`status`.  `diskPresent` models `c.disk()` returning a non-nil disk.
The Go code:
instance nil → (disk nil → None, disk present → Stopped);
instance present → switch on status: PROVISIONING/STAGING → Starting,
RUNNING → Running, STOPPING/STOPPED/TERMINATED → Stopped,
anything else falls through to `return state.None, nil`. -/
def GetState (instance_ : Option String) (diskPresent : Bool) : MachineState :=
  match instance_ with
  | Option.none =>
      if diskPresent then MachineState.stopped else MachineState.none
  | Option.some status =>
      if status = "PROVISIONING" ∨ status = "STAGING" then MachineState.starting
      else if status = "RUNNING" then MachineState.running
      else if status = "STOPPING" ∨ status = "STOPPED" ∨ status = "TERMINATED" then
        MachineState.stopped
      else MachineState.none

end Google

namespace Amazonec2

/-- `Driver.GetState` of the EC2 driver (`amazonec2.go`), instance fetched
successfully; `stateName` is `*inst.State.Name`.  The Go switch:
pending → Starting, running → Running, stopping → Stopping,
shutting-down → Stopping, stopped → Stopped, terminated → Error,
default → Error (with a logged warning). -/
def GetState (stateName : String) : MachineState :=
  if stateName = "pending" then MachineState.starting
  else if stateName = "running" then MachineState.running
  else if stateName = "stopping" then MachineState.stopping
  else if stateName = "shutting-down" then MachineState.stopping
  else if stateName = "stopped" then MachineState.stopped
  else if stateName = "terminated" then MachineState.error
  else MachineState.error

end Amazonec2

/-- C1 counterexample: the §4.2 derivation table does not match the code.
The Google driver maps provider status `STOPPING` to `Stopped` (the table
says `Stopping`), maps an unrecognized status to `None` (the table says
`Error`), and the EC2 driver maps `terminated` to `Error` (the table says
`Stopped`). -/
theorem getState_claimed_table_counterexample :
    Google.GetState (some "STOPPING") true = MachineState.stopped ∧
    MachineState.stopped ≠ MachineState.stopping ∧
    Google.GetState (some "UNRECOGNIZED-STATUS") true = MachineState.none ∧
    MachineState.none ≠ MachineState.error ∧
    Amazonec2.GetState "terminated" = MachineState.error ∧
    MachineState.error ≠ MachineState.stopped :=
  ⟨rfl, by decide, rfl, by decide, rfl, by decide⟩

/-- C1 amended: the state-derivation tables as the code actually implements
them are total.  Google driver: instance absent → `None`/`Stopped` by disk
presence; `PROVISIONING`/`STAGING` → `Starting`; `RUNNING` → `Running`;
`STOPPING`/`STOPPED`/`TERMINATED` → `Stopped`; any unrecognized status →
`None` (no error state, no warning).  EC2 driver: `pending` → `Starting`;
`running` → `Running`; `stopping`/`shutting-down` → `Stopping`;
`stopped` → `Stopped`; `terminated` → `Error`; any unrecognized status →
`Error` (with a logged warning). -/
theorem getState_table_amended :
    (∀ d : Bool,
      Google.GetState Option.none d =
        (if d then MachineState.stopped else MachineState.none)) ∧
    (∀ d : Bool,
      Google.GetState (some "PROVISIONING") d = MachineState.starting ∧
      Google.GetState (some "STAGING") d = MachineState.starting ∧
      Google.GetState (some "RUNNING") d = MachineState.running ∧
      Google.GetState (some "STOPPING") d = MachineState.stopped ∧
      Google.GetState (some "STOPPED") d = MachineState.stopped ∧
      Google.GetState (some "TERMINATED") d = MachineState.stopped) ∧
    (∀ (d : Bool) (s : String),
      s ∉ (["PROVISIONING", "STAGING", "RUNNING",
            "STOPPING", "STOPPED", "TERMINATED"] : List String) →
      Google.GetState (some s) d = MachineState.none) ∧
    (Amazonec2.GetState "pending" = MachineState.starting ∧
     Amazonec2.GetState "running" = MachineState.running ∧
     Amazonec2.GetState "stopping" = MachineState.stopping ∧
     Amazonec2.GetState "shutting-down" = MachineState.stopping ∧
     Amazonec2.GetState "stopped" = MachineState.stopped ∧
     Amazonec2.GetState "terminated" = MachineState.error) ∧
    (∀ s : String,
      s ∉ (["pending", "running", "stopping",
            "shutting-down", "stopped", "terminated"] : List String) →
      Amazonec2.GetState s = MachineState.error) := by
  refine ⟨?_, ?_, ?_, ?_, ?_⟩
  · intro d; cases d <;> rfl
  · intro d; exact ⟨rfl, rfl, rfl, rfl, rfl, rfl⟩
  · intro d s hs
    simp only [List.mem_cons, List.not_mem_nil, or_false, not_or] at hs
    obtain ⟨h1, h2, h3, h4, h5, h6⟩ := hs
    simp [Google.GetState, h1, h2, h3, h4, h5, h6]
  · exact ⟨rfl, rfl, rfl, rfl, rfl, rfl⟩
  · intro s hs
    simp only [List.mem_cons, List.not_mem_nil, or_false, not_or] at hs
    obtain ⟨h1, h2, h3, h4, h5, h6⟩ := hs
    simp [Amazonec2.GetState, h1, h2, h3, h4, h5, h6]

/-- Witness for `getState_table_amended` at a concrete unrecognized
status. -/
theorem getState_table_amended_witness :
    Google.GetState (some "SUSPENDED") true = MachineState.none ∧
    Amazonec2.GetState "rebooting" = MachineState.error :=
  ⟨getState_table_amended.2.2.1 true "SUSPENDED" (by decide),
   getState_table_amended.2.2.2.2 "rebooting" (by decide)⟩

/-! ## Character-list string helpers

Go string primitives (`strings.Contains`, `strings.Split`,
`strconv.ParseInt`, …) are embedded as structurally recursive functions on
`List Char` so that every definition evaluates inside the kernel. -/

/-- `needle` is a prefix of `haystack` (Go `strings.HasPrefix`). -/
def startsWithList : List Char → List Char → Bool
  | [], _ => true
  | _ :: _, [] => false
  | a :: as, b :: bs => a = b && startsWithList as bs

/-- `needle` occurs contiguously inside `haystack`
(Go `strings.Contains`). -/
def containsList (needle : List Char) : List Char → Bool
  | [] => needle.isEmpty
  | c :: rest => startsWithList needle (c :: rest) || containsList needle rest

/-- Split on a separator character (Go `strings.Split` with a one-character
separator); always returns at least one piece. -/
def splitOnChar (sep : Char) : List Char → List (List Char)
  | [] => [[]]
  | c :: rest =>
    let r := splitOnChar sep rest
    if c = sep then [] :: r
    else
      match r with
      | [] => [[c]]
      | g :: gs => (c :: g) :: gs

/-- Split at the first occurrence of `sep` (non-empty), returning the parts
before and after it; `Option.none` when `sep` does not occur. -/
def splitOnceList (sep : List Char) : List Char → Option (List Char × List Char)
  | [] => Option.none
  | c :: rest =>
    if startsWithList sep (c :: rest) then some ([], (c :: rest).drop sep.length)
    else (splitOnceList sep rest).map (fun p => (c :: p.1, p.2))

/-- Decimal digit run to a number; `Option.none` unless the list is a
non-empty run of ASCII digits. -/
def parseNatDigits : List Char → Option Nat
  | [] => Option.none
  | l => l.foldl
      (fun acc c =>
        match acc with
        | Option.none => Option.none
        | some n =>
          if '0' ≤ c ∧ c ≤ '9' then some (n * 10 + (c.toNat - '0'.toNat))
          else Option.none)
      (some 0)

/-- Modelled from the spec: `strconv.ParseInt(s, 10, 0)` from the Go
standard library (external), restricted to an optional leading minus sign
followed by decimal digits; 64-bit overflow is not modelled. -/
def parseIntGo (s : String) : Option Int :=
  match s.data with
  | '-' :: rest => (parseNatDigits rest).map (fun n => -(n : Int))
  | l => (parseNatDigits l).map (fun n => (n : Int))

/-- Modelled from the spec: `driverutil.SplitPortProto` (external to the
repository), which splits a user-supplied open-port specification
`"port/proto"` on `/`, defaulting the protocol to `"tcp"` when absent. -/
def SplitPortProto (raw : String) : String × String :=
  match splitOnChar '/' raw.data with
  | [] => ("", "tcp")
  | [p] => (p.asString, "tcp")
  | p :: proto :: _ => (p.asString, proto.asString)

/-- Modelled from the spec: the `Host` component produced by Go
`net/url.Parse` (external) on a swarm-host URL such as
`"tcp://host:3376"` — the portion after the first `"://"` (the whole
string when absent), up to the first `/`. -/
def urlHost (rawurl : String) : String :=
  let afterScheme :=
    match splitOnceList "://".data rawurl.data with
    | some p => p.2
    | Option.none => rawurl.data
  (afterScheme.takeWhile (fun c => c ≠ '/')).asString

namespace Google

/-- `ComputeUtil.region` (`compute_util.go`): `c.zone[:len(c.zone)-2]`.
The Go slice expression panics (slice bounds out of range) when
`len(zone) < 2`; `Option.none` models that panic.  Zones are ASCII, so Go
byte length and character length coincide. -/
def region (zone : String) : Option String :=
  if 2 ≤ zone.length then some (zone.take (zone.length - 2)) else Option.none

/-- The name test in `ComputeUtil.staticAddress`:
`regexp.MatchString("[a-z]([-a-z0-9]*[a-z0-9])?", address)`.  The pattern
is unanchored and its group is optional, so it matches exactly when the
string contains at least one lowercase ASCII letter. -/
def isName (address : String) : Bool :=
  address.data.any (fun ch => 'a' ≤ ch ∧ ch ≤ 'z')

/-- `ComputeUtil.staticAddress`: a non-name address is returned verbatim;
a named address is resolved via `service.Addresses.Get(project, c.region(),
address)`, whose successful result is abstracted as `addressLookup region`.
The outer `Option.none` models the Go panic inside `c.region()` when the
zone is shorter than two characters (the API call's own error return is
orthogonal and not modelled). -/
def staticAddress (zone address : String) (addressLookup : String → String) :
    Option String :=
  if isName address = false then some address
  else (region zone).map (fun r => addressLookup r)

/-- The subnetwork resolution of `ComputeUtil.createInstance`
(`compute_util.go`): a subnetwork containing `/subnetworks/` is used
verbatim; a non-empty named subnetwork is expanded to
`projects/<networkProject>/regions/<c.region()>/subnetworks/<name>`;
an empty subnetwork leaves the field unset (inner `Option.none`).
The outer `Option.none` models the Go panic inside `c.region()`. -/
def subnetworkPath (zone networkProject subnetwork : String) :
    Option (Option String) :=
  if containsList "/subnetworks/".data subnetwork.data then some (some subnetwork)
  else if subnetwork ≠ "" then
    (region zone).map (fun r =>
      some ("projects/" ++ networkProject ++ "/regions/" ++ r ++
            "/subnetworks/" ++ subnetwork))
  else some Option.none

end Google

/-- C10: `region` removes the final two characters of the zone and is
well-defined only for zones of length at least 2; for a zone of length 0
or 1 the slice expression is out of range (modelled as `Option.none`), and
that out-of-range case is reachable from `staticAddress` with a named address and
from the named-subnetwork branch of `createInstance`. -/
theorem region_slice_out_of_range (z a np sn : String) (lookup : String → String)
    (hz : z.length ≤ 1) (ha : Google.isName a = true)
    (hsn1 : containsList "/subnetworks/".data sn.data = false) (hsn2 : sn ≠ "") :
    (∀ z' : String, 2 ≤ z'.length →
      Google.region z' = some (z'.take (z'.length - 2))) ∧
    Google.region z = Option.none ∧
    Google.staticAddress z a lookup = Option.none ∧
    Google.subnetworkPath z np sn = Option.none := by
  refine ⟨fun z' hz' => if_pos hz', ?_, ?_, ?_⟩
  · exact if_neg (by omega)
  · have hr : Google.region z = Option.none := if_neg (by omega)
    simp [Google.staticAddress, ha, hr]
  · have hr : Google.region z = Option.none := if_neg (by omega)
    simp [Google.subnetworkPath, hsn1, hsn2, hr]

/-- Witness for `region_slice_out_of_range` at zone `"a"` (length 1), the named
address `"my-address"` and the named subnetwork `"my-subnet"`. -/
theorem region_slice_out_of_range_witness :
    Google.region "us-central1-a" = some "us-central1" ∧
    Google.region "a" = Option.none ∧
    Google.staticAddress "a" "my-address" (fun r => r) = Option.none ∧
    Google.subnetworkPath "a" "proj" "my-subnet" = Option.none := by
  have h := region_slice_out_of_range "a" "my-address" "proj" "my-subnet"
    (fun r => r) (by decide) (by decide) (by decide) (by decide)
  exact ⟨h.1 "us-central1-a" (by decide), h.2.1, h.2.2.1, h.2.2.2⟩

/-! ## Operation poller (`ComputeUtil.waitForOp`, `compute_util.go`) -/

/-- A GCE `raw.Operation` as inspected by `waitForOp`: its `Status` string
and its `Error` field (`opError = some msg` models a non-nil `op.Error`
whose first embedded error formats to `msg`). -/
structure Operation where
  status : String
  opError : Option String
deriving DecidableEq, Repr

/-- Outcome of `waitForOp`. -/
inductive WaitResult where
  | success
  | fetchError (e : String)
  | opFailure (e : String)
  | timeout
  | configError
deriving DecidableEq, Repr

/-- Observable behavior of one `waitForOp` run: the returned outcome, how
many times the status-fetch function was invoked, and the sequence of
intervals slept. -/
structure WaitTrace where
  result : WaitResult
  fetches : Nat
  sleeps : List Nat
deriving DecidableEq, Repr

/-- The loop of `ComputeUtil.waitForOp`.  `fetch k` is the result of the
`k`-th call of `opGetter`; `backoffs` is the finite sequence of intervals
the `cenkalti/backoff` policy object emits from `NextBackOff` before
returning `backoff.Stop` (the library is external to the repository, and
`MaxElapsedTime` exhaustion is precisely `NextBackOff == backoff.Stop`).
Each iteration: a fetch error is returned as-is; a `DONE` operation with a
non-nil `Error` returns that failure, with a nil `Error` returns success;
otherwise the loop asks for the next backoff interval — `Stop` (list
exhausted) yields the timeout error, an interval is slept and the loop
refetches. -/
def waitForOpLoop (fetch : Nat → Except String Operation) :
    List Nat → WaitTrace
  | [] =>
    match fetch 0 with
    | Except.error e => ⟨WaitResult.fetchError e, 1, []⟩
    | Except.ok op =>
      if op.status = "DONE" then
        match op.opError with
        | some msg => ⟨WaitResult.opFailure msg, 1, []⟩
        | Option.none => ⟨WaitResult.success, 1, []⟩
      else ⟨WaitResult.timeout, 1, []⟩
  | n :: rest =>
    match fetch 0 with
    | Except.error e => ⟨WaitResult.fetchError e, 1, []⟩
    | Except.ok op =>
      if op.status = "DONE" then
        match op.opError with
        | some msg => ⟨WaitResult.opFailure msg, 1, []⟩
        | Option.none => ⟨WaitResult.success, 1, []⟩
      else
        let r := waitForOpLoop (fun i => fetch (i + 1)) rest
        ⟨r.result, r.fetches + 1, n :: r.sleeps⟩

/-- `ComputeUtil.waitForOp`: a nil `operationBackoffFactory` is rejected
up front (`errors.New("operationBackoffFactory is not defined")`) before
any fetch or sleep; otherwise the factory's backoff governs the loop. -/
def waitForOp (operationBackoffFactory : Option (List Nat))
    (fetch : Nat → Except String Operation) : WaitTrace :=
  match operationBackoffFactory with
  | Option.none => ⟨WaitResult.configError, 0, []⟩
  | some backoffs => waitForOpLoop fetch backoffs

/-- The `k`-th fetch came back without error and not yet `DONE`. -/
def isPending (r : Except String Operation) : Prop :=
  ∃ op, r = Except.ok op ∧ op.status ≠ "DONE"

/-- The fetch reported the operation `DONE` with no embedded failure. -/
def isDoneOk (r : Except String Operation) : Prop :=
  ∃ op, r = Except.ok op ∧ op.status = "DONE" ∧ op.opError = Option.none

/-- The fetch reported the operation `DONE` with embedded failure `msg`. -/
def isDoneFailed (r : Except String Operation) (msg : String) : Prop :=
  ∃ op, r = Except.ok op ∧ op.status = "DONE" ∧ op.opError = some msg

theorem waitForOpLoop_done (backoffs : List Nat) :
    ∀ (fetch : Nat → Except String Operation) (k : Nat), k ≤ backoffs.length →
    (∀ j, j < k → isPending (fetch j)) →
    ∀ op, fetch k = Except.ok op → op.status = "DONE" →
    waitForOpLoop fetch backoffs =
      ⟨match op.opError with
        | some msg => WaitResult.opFailure msg
        | Option.none => WaitResult.success, k + 1, backoffs.take k⟩ := by
  induction backoffs with
  | nil =>
    intro fetch k hk hpend op hop hdone
    have hk0 : k = 0 := Nat.le_zero.mp hk
    subst hk0
    simp only [waitForOpLoop, hop, hdone, if_true, List.take_nil]
    cases op.opError <;> rfl
  | cons n rest ih =>
    intro fetch k hk hpend op hop hdone
    cases k with
    | zero =>
      simp only [waitForOpLoop, hop, hdone, if_true, List.take_zero]
      cases op.opError <;> rfl
    | succ k' =>
      obtain ⟨op0, hop0, hpend0⟩ := hpend 0 (Nat.succ_pos k')
      have hrec := ih (fun i => fetch (i + 1)) k' (Nat.le_of_succ_le_succ hk)
        (fun j hj => hpend (j + 1) (Nat.succ_lt_succ hj)) op hop hdone
      simp only [waitForOpLoop, hop0, if_neg hpend0, hrec, List.take_succ_cons]

theorem waitForOpLoop_all_pending (backoffs : List Nat) :
    ∀ fetch : Nat → Except String Operation,
    (∀ k, k ≤ backoffs.length → isPending (fetch k)) →
    waitForOpLoop fetch backoffs =
      ⟨WaitResult.timeout, backoffs.length + 1, backoffs⟩ := by
  induction backoffs with
  | nil =>
    intro fetch hpend
    obtain ⟨op, hop, hne⟩ := hpend 0 (le_refl 0)
    simp [waitForOpLoop, hop, hne]
  | cons n rest ih =>
    intro fetch hpend
    obtain ⟨op, hop, hne⟩ := hpend 0 (Nat.zero_le _)
    have hrec := ih (fun i => fetch (i + 1))
      (fun k hk => hpend (k + 1) (by simpa using Nat.succ_le_succ hk))
    simp [waitForOpLoop, hop, hne, hrec]

theorem waitForOpLoop_success_class (backoffs : List Nat) :
    ∀ fetch : Nat → Except String Operation,
    (waitForOpLoop fetch backoffs).result = WaitResult.success →
    ∃ k, k ≤ backoffs.length ∧ isDoneOk (fetch k) ∧
      ∀ j, j < k → isPending (fetch j) := by
  induction backoffs with
  | nil =>
    intro fetch h
    cases hop : fetch 0 with
    | error e => simp [waitForOpLoop, hop] at h
    | ok op =>
      by_cases hs : op.status = "DONE"
      · cases he : op.opError with
        | none =>
          exact ⟨0, le_refl 0, ⟨op, hop, hs, he⟩,
            fun j hj => absurd hj (Nat.not_lt_zero j)⟩
        | some msg => simp [waitForOpLoop, hop, hs, he] at h
      · simp [waitForOpLoop, hop, hs] at h
  | cons n rest ih =>
    intro fetch h
    cases hop : fetch 0 with
    | error e => simp [waitForOpLoop, hop] at h
    | ok op =>
      by_cases hs : op.status = "DONE"
      · cases he : op.opError with
        | none =>
          exact ⟨0, Nat.zero_le _, ⟨op, hop, hs, he⟩,
            fun j hj => absurd hj (Nat.not_lt_zero j)⟩
        | some msg => simp [waitForOpLoop, hop, hs, he] at h
      · simp only [waitForOpLoop, hop, if_neg hs] at h
        obtain ⟨k, hk, hdone, hpend⟩ := ih (fun i => fetch (i + 1)) h
        refine ⟨k + 1, by simpa using Nat.succ_le_succ hk, hdone, fun j hj => ?_⟩
        cases j with
        | zero => exact ⟨op, hop, hs⟩
        | succ j' => exact hpend j' (Nat.lt_of_succ_lt_succ hj)

/-- C4: behavior of the operation poller over every status sequence.
`fetch k` is the `k`-th `opGetter` result and `backoffs` the intervals the
backoff policy emits before `Stop` (the `MaxElapsedTime` budget).  The
poller (1) returns success exactly when some fetch reports the operation
`DONE` with no embedded failure, all earlier fetches being non-`DONE`;
(2) on a `DONE` fetch with embedded failure it returns exactly that
failure having fetched `k+1` times and slept only the first `k` intervals
(no further retry); and (3) when `DONE` never arrives before the backoff
budget is exhausted it returns the timeout error. -/
theorem waitForOp_poller_spec (backoffs : List Nat)
    (fetch : Nat → Except String Operation) :
    ((waitForOp (some backoffs) fetch).result = WaitResult.success ↔
      ∃ k, k ≤ backoffs.length ∧ isDoneOk (fetch k) ∧
        ∀ j, j < k → isPending (fetch j)) ∧
    (∀ k msg, k ≤ backoffs.length → (∀ j, j < k → isPending (fetch j)) →
      isDoneFailed (fetch k) msg →
      waitForOp (some backoffs) fetch =
        ⟨WaitResult.opFailure msg, k + 1, backoffs.take k⟩) ∧
    ((∀ k, k ≤ backoffs.length → isPending (fetch k)) →
      waitForOp (some backoffs) fetch =
        ⟨WaitResult.timeout, backoffs.length + 1, backoffs⟩) := by
  refine ⟨⟨waitForOpLoop_success_class backoffs fetch, ?_⟩, ?_, ?_⟩
  · rintro ⟨k, hk, ⟨op, hop, hs, he⟩, hpend⟩
    have h := waitForOpLoop_done backoffs fetch k hk hpend op hop hs
    show (waitForOpLoop fetch backoffs).result = _
    rw [h, he]
  · rintro k msg hk hpend ⟨op, hop, hs, he⟩
    have h := waitForOpLoop_done backoffs fetch k hk hpend op hop hs
    show waitForOpLoop fetch backoffs = _
    rw [h, he]
  · intro hpend
    exact waitForOpLoop_all_pending backoffs fetch hpend

/-- A concrete status sequence: one pending fetch, then `DONE` without
failure. -/
def examplePollFetch : Nat → Except String Operation := fun k =>
  if k = 0 then Except.ok ⟨"PENDING", Option.none⟩
  else Except.ok ⟨"DONE", Option.none⟩

/-- Witness for `waitForOp_poller_spec`: with backoff budget `[1, 2]` and
`examplePollFetch` the poller succeeds. -/
theorem waitForOp_poller_spec_witness :
    (waitForOp (some [1, 2]) examplePollFetch).result = WaitResult.success :=
  (waitForOp_poller_spec [1, 2] examplePollFetch).1.mpr
    ⟨1, by decide, ⟨⟨"DONE", Option.none⟩, rfl, rfl, rfl⟩, fun j hj => by
      have hj0 : j = 0 := by omega
      subst hj0
      exact ⟨⟨"PENDING", Option.none⟩, rfl, by decide⟩⟩

/-- C5: a nil `OperationBackoffFactory` makes `waitForOp` fail fast with
the configuration error, before any status fetch and before any sleep. -/
theorem waitForOp_missing_factory (fetch : Nat → Except String Operation) :
    waitForOp Option.none fetch = ⟨WaitResult.configError, 0, []⟩ := rfl

/-- Witness for `waitForOp_missing_factory` at a concrete fetch
function. -/
theorem waitForOp_missing_factory_witness :
    waitForOp Option.none examplePollFetch =
      ⟨WaitResult.configError, 0, []⟩ :=
  waitForOp_missing_factory examplePollFetch

/-! ## Create orchestration and Remove teardown -/

/-- Outcome of one backend delete call as classified by the drivers:
success, a "not found" answer (`isNotFound` / HTTP 404 for Google), or a
genuine failure with message `e`. -/
inductive ApiOutcome where
  | ok
  | notFound
  | failed (e : String)
deriving DecidableEq, Repr

namespace Amazonec2

/-- The two sequential phases of EC2 `Driver.Create`: the result of
`d.checkPrereqs()` and the result of `d.innerCreate()` (which spans key
pair, security groups, RunInstances, tag application and the IP/instance
waits). -/
structure CreateEnv where
  checkPrereqs : Except String Unit
  innerCreate : Except String Unit
deriving Repr

/-- EC2 `Driver.Create` (`amazonec2.go`): on an `innerCreate` failure the
code calls `d.Remove()` to clean up the partly created resources and then
returns the original error; `d.Remove()`'s own return value is discarded,
which is why `removeResult` does not influence the output.  The boolean
records whether `Remove` was invoked. -/
def Create (env : CreateEnv) (_removeResult : Except (List String) Unit) :
    Except String Unit × Bool :=
  match env.checkPrereqs with
  | Except.error e => (Except.error e, false)
  | Except.ok _ =>
    match env.innerCreate with
    | Except.error e => (Except.error e, true)
    | Except.ok _ => (Except.ok (), false)

/-- EC2 `Driver.terminate`: an empty `InstanceId` is success (warn only);
a `TerminateInstances` error whose message starts with
`"unknown instance"` or `"InvalidInstanceID.NotFound"` is success
(already absent); any other error is wrapped as
`"unable to terminate instance: …"`. -/
def terminate (instanceId : String) (apiErr : Option String) :
    Option String :=
  if instanceId = "" then Option.none
  else
    match apiErr with
    | Option.none => Option.none
    | some e =>
      if startsWithList "unknown instance".data e.data ∨
         startsWithList "InvalidInstanceID.NotFound".data e.data then
        Option.none
      else some ("unable to terminate instance: " ++ e)

/-- EC2 `Driver.deleteKeyPair`: an empty `KeyName` is success (warn only);
otherwise the `DeleteKeyPair` call's error, if any, is returned. -/
def deleteKeyPair (keyName : String) (apiErr : Option String) :
    Option String :=
  if keyName = "" then Option.none else apiErr

/-- EC2 `Driver.Remove`: best-effort teardown that runs `terminate` and —
only when the key pair was created by the driver (`!d.ExistingKey`) —
`deleteKeyPair`, collecting every sub-error into a `mcnutils.MultiError`;
it returns success exactly when no sub-error was collected. -/
def Remove (instanceId keyName : String) (terminateApiErr : Option String)
    (existingKey : Bool) (deleteKeyApiErr : Option String) :
    Except (List String) Unit :=
  let errs : List String :=
    match terminate instanceId terminateApiErr with
    | some e => [e]
    | Option.none => []
  let errs :=
    if existingKey = false then
      match deleteKeyPair keyName deleteKeyApiErr with
      | some e => errs ++ [e]
      | Option.none => errs
    else errs
  if errs.isEmpty then Except.ok () else Except.error errs

end Amazonec2

namespace Google

/-- The sequential steps of Google `Driver.Create` (`google.go`):
SSH key generation, `newComputeUtil`, `openFirewallPorts`, then either
`configureInstance` (when `UseExisting`) or `createInstance`. -/
structure CreateEnv where
  generateSSHKey : Except String Unit
  newComputeUtil : Except String Unit
  useExisting : Bool
  openFirewallPorts : Except String Unit
  configureInstance : Except String Unit
  createInstance : Except String Unit
deriving Repr

/-- Google `Driver.Create`: each failing step returns its error directly;
no compensating `Remove` is ever invoked (the boolean, recording whether
`Remove` was called, is `false` on every path). -/
def Create (env : CreateEnv) : Except String Unit × Bool :=
  match env.generateSSHKey with
  | Except.error e => (Except.error e, false)
  | Except.ok _ =>
    match env.newComputeUtil with
    | Except.error e => (Except.error e, false)
    | Except.ok _ =>
      match env.openFirewallPorts with
      | Except.error e => (Except.error e, false)
      | Except.ok _ =>
        if env.useExisting then (env.configureInstance, false)
        else (env.createInstance, false)

/-- Google `ComputeUtil.deleteDisk`: when `c.disk()` comes back nil the
function returns success without issuing the delete call (the boolean
records whether `Disks.Delete` was called); otherwise the delete call plus
its operation wait, collapsed into `deleteApi`, decide the result. -/
def deleteDisk (diskPresent : Bool) (deleteApi : Except String Unit) :
    Except String Unit × Bool :=
  if diskPresent = false then (Except.ok (), false)
  else (deleteApi, true)

/-- Google `Driver.Remove`: deletes the instance, treating a not-found
answer as success (warn and proceed) but returning any other error
immediately — the disk is then never attempted; then deletes the disk
under the same not-found policy.  The boolean records whether disk
deletion was attempted. -/
def Remove (newComputeUtil : Except String Unit)
    (deleteInstanceResult deleteDiskResult : ApiOutcome) :
    Except String Unit × Bool :=
  match newComputeUtil with
  | Except.error e => (Except.error e, false)
  | Except.ok _ =>
    match deleteInstanceResult with
    | ApiOutcome.failed e => (Except.error e, false)
    | _ =>
      match deleteDiskResult with
      | ApiOutcome.failed e => (Except.error e, true)
      | _ => (Except.ok (), true)

end Google

/-- C3 counterexample: in the Google driver a failure of creation step 3
(`openFirewallPorts`, after SSH key generation and `newComputeUtil`
succeeded) is returned to the caller with no compensating `Remove`
invocation (second component `false`), refuting the claim that every
post-first-step creation failure triggers `Remove`. -/
theorem create_compensation_counterexample :
    Google.Create
      ⟨Except.ok (), Except.ok (), false,
       Except.error "opening firewall ports failed",
       Except.ok (), Except.ok ()⟩ =
      (Except.error "opening firewall ports failed", false) := rfl

/-- C3 amended: in the EC2 driver, when `checkPrereqs` succeeds and
`innerCreate` fails, `Remove` is invoked and the caller receives exactly
the `innerCreate` failure regardless of `Remove`'s own outcome; the Google
driver never invokes a compensating `Remove` from `Create`. -/
theorem create_compensation_amended (env : Amazonec2.CreateEnv) (e : String)
    (removeResult : Except (List String) Unit)
    (h1 : env.checkPrereqs = Except.ok ())
    (h2 : env.innerCreate = Except.error e) :
    Amazonec2.Create env removeResult = (Except.error e, true) ∧
    (∀ g : Google.CreateEnv, (Google.Create g).2 = false) := by
  constructor
  · simp [Amazonec2.Create, h1, h2]
  · rintro ⟨gk, gcu, gue, gfw, gci, gcr⟩
    cases gk <;> cases gcu <;> cases gfw <;> cases gue <;> rfl

/-- Witness for `create_compensation_amended` at a concrete failing
creation and a concrete (failing!) `Remove` outcome. -/
theorem create_compensation_amended_witness :
    Amazonec2.Create ⟨Except.ok (), Except.error "boom"⟩
      (Except.error ["cleanup failed"]) = (Except.error "boom", true) :=
  (create_compensation_amended ⟨Except.ok (), Except.error "boom"⟩ "boom"
    (Except.error ["cleanup failed"]) rfl rfl).1

/-- C7 counterexample: the Google driver's `Remove` stops at the first
genuine sub-resource failure — a failing instance deletion is returned
alone and disk teardown is never attempted (second component `false`) —
refuting the claim of best-effort continuation with an aggregate error. -/
theorem remove_aggregation_counterexample :
    Google.Remove (Except.ok ())
      (ApiOutcome.failed "instance delete failed") ApiOutcome.ok =
      (Except.error "instance delete failed", false) := rfl

/-- C7 amended: the EC2 driver's `Remove` is best-effort — it attempts
instance termination and (for a system-created key) key-pair deletion,
continues past individual failures, aggregates every sub-error, and
succeeds exactly when no sub-step genuinely failed; with a caller-supplied
key the key step is skipped.  The Google driver's `Remove`, by contrast,
returns the first genuine failure alone and then skips the disk step. -/
theorem remove_aggregation_amended :
    (∀ (iid kn : String) (te ke : Option String),
      Amazonec2.Remove iid kn te false ke = Except.ok () ↔
        Amazonec2.terminate iid te = Option.none ∧
        Amazonec2.deleteKeyPair kn ke = Option.none) ∧
    (∀ (iid kn : String) (te ke : Option String) (e1 e2 : String),
      Amazonec2.terminate iid te = some e1 →
      Amazonec2.deleteKeyPair kn ke = some e2 →
      Amazonec2.Remove iid kn te false ke = Except.error [e1, e2]) ∧
    (∀ (iid kn : String) (te ke : Option String),
      Amazonec2.Remove iid kn te true ke =
        (match Amazonec2.terminate iid te with
          | some e => Except.error [e]
          | Option.none => Except.ok ())) ∧
    (∀ (e : String) (dd : ApiOutcome),
      Google.Remove (Except.ok ()) (ApiOutcome.failed e) dd =
        (Except.error e, false)) := by
  refine ⟨?_, ?_, ?_, ?_⟩
  · intro iid kn te ke
    cases ht : Amazonec2.terminate iid te <;>
      cases hk : Amazonec2.deleteKeyPair kn ke <;>
        simp [Amazonec2.Remove, ht, hk]
  · intro iid kn te ke e1 e2 ht hk
    simp [Amazonec2.Remove, ht, hk]
  · intro iid kn te ke
    cases ht : Amazonec2.terminate iid te <;> simp [Amazonec2.Remove, ht]
  · intro e dd
    rfl

/-- Witness for `remove_aggregation_amended`: both sub-steps genuinely
fail and the aggregate carries both sub-errors. -/
theorem remove_aggregation_amended_witness :
    Amazonec2.Remove "i-0abc" "mykey" (some "internal error") false
      (some "key delete refused") =
      Except.error
        ["unable to terminate instance: internal error",
         "key delete refused"] :=
  remove_aggregation_amended.2.1 "i-0abc" "mykey" (some "internal error")
    (some "key delete refused") "unable to terminate instance: internal error"
    "key delete refused" (by decide) (by decide)

/-- C8: already-absent resources are treated as success by every teardown
sub-step — Google `Remove` proceeds to completion when both the instance
and the disk answer not-found, Google `deleteDisk` short-circuits to
success without a delete call when the disk is nil, EC2 `terminate` maps
an empty instance id or an `unknown instance` /
`InvalidInstanceID.NotFound` answer to success, and EC2 `deleteKeyPair`
maps an empty key name to success. -/
theorem remove_idempotent_delete (e₁ e₂ : String) (api : Except String Unit)
    (apiErr : Option String)
    (h₁ : startsWithList "unknown instance".data e₁.data = true)
    (h₂ : startsWithList "InvalidInstanceID.NotFound".data e₂.data = true) :
    Google.Remove (Except.ok ()) ApiOutcome.notFound ApiOutcome.notFound =
      (Except.ok (), true) ∧
    Google.deleteDisk false api = (Except.ok (), false) ∧
    (∀ iid : String, Amazonec2.terminate iid (some e₁) = Option.none) ∧
    (∀ iid : String, Amazonec2.terminate iid (some e₂) = Option.none) ∧
    Amazonec2.terminate "" apiErr = Option.none ∧
    Amazonec2.deleteKeyPair "" apiErr = Option.none := by
  refine ⟨rfl, rfl, ?_, ?_, rfl, rfl⟩
  · intro iid
    by_cases hiid : iid = "" <;> simp [Amazonec2.terminate, hiid, h₁]
  · intro iid
    by_cases hiid : iid = "" <;> simp [Amazonec2.terminate, hiid, h₂]

/-- Witness for `remove_idempotent_delete` at concrete not-found error
messages. -/
theorem remove_idempotent_delete_witness :
    Amazonec2.terminate "i-0abc"
      (some "InvalidInstanceID.NotFound: i-0abc does not exist") =
      Option.none :=
  (remove_idempotent_delete "unknown instance i-0abc"
    "InvalidInstanceID.NotFound: i-0abc does not exist"
    (Except.ok ()) Option.none (by decide) (by decide)).2.2.2.1 "i-0abc"

/-! ## `GetIP` and the address cache -/

/-- Observable behavior of one `GetIP` call: the returned value, the
driver's `IPAddress` field afterwards, and how many backend queries the
call issued. -/
structure GetIPOut where
  result : Except String String
  cache : String
  backendCalls : Nat
deriving Repr

namespace Google

/-- Google `Driver.GetIP` (`google.go`): a non-empty cached `d.IPAddress`
is returned with no backend contact; otherwise `newComputeUtil` then
`c.ip()` run, an empty resolved address yields
`drivers.ErrHostIsNotRunning`, and a non-empty one is stored into
`d.IPAddress` before being returned. -/
def GetIP (ipAddress : String) (newComputeUtil : Except String Unit)
    (backendIp : Except String String) : GetIPOut :=
  if ipAddress ≠ "" then ⟨Except.ok ipAddress, ipAddress, 0⟩
  else
    match newComputeUtil with
    | Except.error e => ⟨Except.error e, ipAddress, 0⟩
    | Except.ok _ =>
      match backendIp with
      | Except.error e => ⟨Except.error e, ipAddress, 1⟩
      | Except.ok ip =>
        if ip = "" then ⟨Except.error "Host is not running", ipAddress, 1⟩
        else ⟨Except.ok ip, ip, 1⟩

/-- Google `Driver.Stop`: after a successful `stopInstance` the cached
`d.IPAddress` is reset to the empty string. -/
def Stop (newComputeUtil stopInstanceResult : Except String Unit)
    (ipAddress : String) : Except String Unit × String :=
  match newComputeUtil with
  | Except.error e => (Except.error e, ipAddress)
  | Except.ok _ =>
    match stopInstanceResult with
    | Except.error e => (Except.error e, ipAddress)
    | Except.ok _ => (Except.ok (), "")

end Google

namespace Amazonec2

/-- The fields of an `ec2.Instance` that `GetIP` reads. -/
structure Ec2Instance where
  instanceId : String
  privateIp : Option String
  publicIp : Option String
deriving DecidableEq, Repr

/-- EC2 `Driver.GetIP` (`amazonec2.go`): a non-empty cached `d.IPAddress`
is returned with no backend contact; otherwise the instance is fetched and
the private (under `PrivateIPOnly`/`UsePrivateIP`) or public address
returned.  The resolved address is NOT written back to `d.IPAddress` —
only the create-time wait loop (`instanceIpAvailable`) populates the
cache. -/
def GetIP (ipAddress : String) (privateIPOnly usePrivateIP : Bool)
    (inst : Except String Ec2Instance) : GetIPOut :=
  if ipAddress ≠ "" then ⟨Except.ok ipAddress, ipAddress, 0⟩
  else
    match inst with
    | Except.error e => ⟨Except.error e, ipAddress, 1⟩
    | Except.ok i =>
      if privateIPOnly then
        match i.privateIp with
        | Option.none =>
          ⟨Except.error ("No private IP for instance " ++ i.instanceId),
           ipAddress, 1⟩
        | some p => ⟨Except.ok p, ipAddress, 1⟩
      else if usePrivateIP then
        match i.privateIp with
        | Option.none =>
          ⟨Except.error ("No private IP for instance " ++ i.instanceId),
           ipAddress, 1⟩
        | some p => ⟨Except.ok p, ipAddress, 1⟩
      else
        match i.publicIp with
        | Option.none =>
          ⟨Except.error ("No IP for instance " ++ i.instanceId),
           ipAddress, 1⟩
        | some p => ⟨Except.ok p, ipAddress, 1⟩

end Amazonec2

/-- C9 counterexample: the EC2 driver's `GetIP` resolves the non-empty
address `203.0.113.7` from the backend yet leaves the cached `IPAddress`
empty (`cache = ""`), so the very next `GetIP` call is in the same state
and contacts the backend again (`backendCalls = 1`, not `0`) — refuting
the claim that `GetIP` caches the first non-empty resolved address. -/
theorem getIP_cache_counterexample :
    Amazonec2.GetIP "" false false
      (Except.ok ⟨"i-0abc", some "10.0.0.5", some "203.0.113.7"⟩) =
      ⟨Except.ok "203.0.113.7", "", 1⟩ := rfl

/-- C9 amended: the Google driver's `GetIP` caches the first non-empty
resolved address in `d.IPAddress`, and any `GetIP` call that finds a
non-empty cache returns it with zero backend contact (in both drivers);
the cache persists until Google's `Stop` resets it to empty, and the EC2
driver's `GetIP` itself never writes the cache (it is populated only by
the create-time wait loop). -/
theorem getIP_cache_amended (ip : String) (hip : ip ≠ "")
    (niu : Except String Unit) (bip : Except String String)
    (po up : Bool) (inst : Except String Amazonec2.Ec2Instance) :
    Google.GetIP "" (Except.ok ()) (Except.ok ip) = ⟨Except.ok ip, ip, 1⟩ ∧
    Google.GetIP ip niu bip = ⟨Except.ok ip, ip, 0⟩ ∧
    Amazonec2.GetIP ip po up inst = ⟨Except.ok ip, ip, 0⟩ ∧
    (Amazonec2.GetIP "" po up inst).cache = "" ∧
    Google.Stop (Except.ok ()) (Except.ok ()) ip = (Except.ok (), "") := by
  refine ⟨?_, ?_, ?_, ?_, rfl⟩
  · simp [Google.GetIP, hip]
  · simp [Google.GetIP, hip]
  · simp [Amazonec2.GetIP, hip]
  · cases inst with
    | error e => simp [Amazonec2.GetIP]
    | ok i =>
      cases po <;> cases up <;>
        simp [Amazonec2.GetIP] <;>
          first
          | (cases i.privateIp <;> simp)
          | (cases i.publicIp <;> simp)

/-- Witness for `getIP_cache_amended` at a concrete address and
instance. -/
theorem getIP_cache_amended_witness :
    Google.GetIP "" (Except.ok ()) (Except.ok "203.0.113.7") =
      ⟨Except.ok "203.0.113.7", "203.0.113.7", 1⟩ :=
  (getIP_cache_amended "203.0.113.7" (by decide) (Except.ok ())
    (Except.ok "203.0.113.7") false false
    (Except.ok ⟨"i-0abc", Option.none, Option.none⟩)).1

/-! ## Security reconciler: Google firewall (`compute_util.go`) -/

namespace Google

/-- The docker control-port constant `dockerPort = "2376"` of
`compute_util.go`. -/
def dockerPort : String := "2376"

/-- A `raw.FirewallAllowed` entry: one protocol with its port list. -/
structure FirewallAllowed where
  ipProtocol : String
  ports : List String
deriving DecidableEq, Repr

/-- The `Allowed` rules of the `docker-machines` `raw.Firewall` (the other
fields — name, source ranges, target tags, network — do not participate in
port reconciliation). -/
structure Firewall where
  allowed : List FirewallAllowed
deriving DecidableEq, Repr

/-- The `port+"/"+proto` key built from one open-port specification, as
both `missingOpenedPorts` and `portsUsed` build it after
`driverutil.SplitPortProto`. -/
def portKey (p : String) : String :=
  (SplitPortProto p).1 ++ "/" ++ (SplitPortProto p).2

/-- The keys of the `opened` map of `missingOpenedPorts`:
`allowedPort+"/"+allowed.IPProtocol` over every allowed entry. -/
def openedKeys (allowed : List FirewallAllowed) : List String :=
  allowed.flatMap (fun a => a.ports.map (fun port => port ++ "/" ++ a.ipProtocol))

/-- `missing[proto] = append(missing[proto], port)` on an
insertion-ordered association list (the Go `map[string][]string` is
iterated in unspecified order; only the underlying (port, protocol) set
matters to the theorems below). -/
def addToAssoc : List (String × List String) → String → String →
    List (String × List String)
  | [], proto, port => [(proto, [port])]
  | (p, ps) :: rest, proto, port =>
    if p = proto then (p, ps ++ [port]) :: rest
    else (p, ps) :: addToAssoc rest proto port

/-- All `port+"/"+proto` keys of a protocol-grouped association list. -/
def assocKeys (m : List (String × List String)) : List String :=
  m.flatMap (fun g => g.2.map (fun port => port ++ "/" ++ g.1))

/-- `missingOpenedPorts` (`compute_util.go`): the desired ports not yet
present in the rule's allowed entries, grouped by protocol. -/
def missingOpenedPorts (rule : Firewall) (ports : List String) :
    List (String × List String) :=
  ports.foldl
    (fun missing p =>
      if portKey p ∈ openedKeys rule.allowed then missing
      else addToAssoc missing (SplitPortProto p).2 (SplitPortProto p).1)
    []

/-- `ComputeUtil.portsUsed`: the docker control port `2376/tcp`, plus the
swarm port (extracted from the parsed swarm-host URL) when the machine is
a swarm master, plus every user-supplied open port.  `Option.none` models
the Go `strings.Split(u.Host, ":")[1]` index-out-of-range panic when the
swarm host has no port (the `url.Parse` error return is not modelled: it
cannot fire on a well-formed host string). -/
def portsUsed (swarmMaster : Bool) (swarmHost : String)
    (openPorts : List String) : Option (List String) :=
  let base := [dockerPort ++ "/tcp"]
  let withSwarm : Option (List String) :=
    if swarmMaster then
      match (splitOnChar ':' (urlHost swarmHost).data).get? 1 with
      | Option.none => Option.none
      | some sp => some (base ++ [sp.asString ++ "/tcp"])
    else some base
  withSwarm.map (fun ps => ps ++ openPorts.map portKey)

/-- The `Allowed` list of an optional firewall (`[]` when the rule does
not exist). -/
def allowedOpt : Option Firewall → List FirewallAllowed
  | some r => r.allowed
  | Option.none => []

theorem allowedOpt_some (r : Firewall) : allowedOpt (some r) = r.allowed := rfl

/-- `ComputeUtil.openFirewallPorts` (`compute_util.go`).  Inputs model the
backend: `fw` is the `docker-machines` firewall rule the fetch returns
(`Option.none`: absent, to be created in memory with empty `Allowed`),
`fetchFails` a fetch error.  Output: `Option.none` models the swarm-port
panic; otherwise the error or the pair of the resulting backend rule state
and the number of mutating calls issued (`Firewalls.Insert` /
`Firewalls.Update`, each followed by an operation wait that is orthogonal
here).  When no desired port is missing the function returns before any
mutating call. -/
def openFirewallPorts (skipFirewall fetchFails : Bool) (fw : Option Firewall)
    (swarmMaster : Bool) (swarmHost : String) (openPorts : List String) :
    Option (Except String (Option Firewall × Nat)) :=
  if skipFirewall then some (Except.ok (fw, 0))
  else if fetchFails then some (Except.error "requesting firewall rule")
  else
    match portsUsed swarmMaster swarmHost openPorts with
    | Option.none => Option.none
    | some ports =>
      let rule : Firewall := { allowed := allowedOpt fw }
      let missing := missingOpenedPorts rule ports
      if missing.isEmpty then some (Except.ok (fw, 0))
      else
        let rule' : Firewall :=
          { allowed := rule.allowed ++
              missing.map (fun m => { ipProtocol := m.1, ports := m.2 }) }
        some (Except.ok (some rule', 1))

theorem mem_assocKeys_addToAssoc (m : List (String × List String))
    (proto port k : String) :
    k ∈ assocKeys (addToAssoc m proto port) ↔
      k ∈ assocKeys m ∨ k = port ++ "/" ++ proto := by
  induction m with
  | nil => simp [addToAssoc, assocKeys]
  | cons g rest ih =>
    obtain ⟨p, ps⟩ := g
    by_cases hp : p = proto
    · subst hp
      simp only [addToAssoc, if_pos rfl]
      simp only [assocKeys, List.flatMap_cons, List.mem_append,
        List.mem_map] at ih ⊢
      aesop
    · simp only [addToAssoc, if_neg hp]
      simp only [assocKeys, List.flatMap_cons, List.mem_append] at ih ⊢
      rw [ih]
      tauto

theorem mem_assocKeys_missingFold (opened : List String) (ports : List String) :
    ∀ (acc : List (String × List String)) (k : String),
    (k ∈ assocKeys (ports.foldl
      (fun missing p =>
        if portKey p ∈ opened then missing
        else addToAssoc missing (SplitPortProto p).2 (SplitPortProto p).1)
      acc) ↔
      k ∈ assocKeys acc ∨ ∃ p, p ∈ ports ∧ k = portKey p ∧ portKey p ∉ opened) := by
  induction ports with
  | nil => simp
  | cons q rest ih =>
    intro acc k
    simp only [List.foldl_cons]
    by_cases hq : portKey q ∈ opened
    · rw [if_pos hq, ih]
      apply or_congr_right
      constructor
      · rintro ⟨p, hp, hk, hno⟩
        exact ⟨p, List.mem_cons_of_mem q hp, hk, hno⟩
      · rintro ⟨p, hp, hk, hno⟩
        rcases List.mem_cons.mp hp with h | h
        · subst h; exact absurd hq hno
        · exact ⟨p, h, hk, hno⟩
    · rw [if_neg hq, ih, mem_assocKeys_addToAssoc]
      have hkey : (SplitPortProto q).1 ++ "/" ++ (SplitPortProto q).2 =
          portKey q := rfl
      rw [hkey]
      constructor
      · rintro ((h | rfl) | ⟨p, hp, hk, hno⟩)
        · exact Or.inl h
        · exact Or.inr ⟨q, List.mem_cons_self q rest, rfl, hq⟩
        · exact Or.inr ⟨p, List.mem_cons_of_mem q hp, hk, hno⟩
      · rintro (h | ⟨p, hp, hk, hno⟩)
        · exact Or.inl (Or.inl h)
        · rcases List.mem_cons.mp hp with h | h
          · subst h; exact Or.inl (Or.inr hk)
          · exact Or.inr ⟨p, h, hk, hno⟩

theorem missingFold_of_all_opened (opened : List String) (ports : List String)
    (h : ∀ p, p ∈ ports → portKey p ∈ opened) :
    ∀ acc, ports.foldl
      (fun missing p =>
        if portKey p ∈ opened then missing
        else addToAssoc missing (SplitPortProto p).2 (SplitPortProto p).1)
      acc = acc := by
  induction ports with
  | nil => intro acc; rfl
  | cons q rest ih =>
    intro acc
    simp only [List.foldl_cons, if_pos (h q (List.mem_cons_self q rest))]
    exact ih (fun p hp => h p (List.mem_cons_of_mem q hp)) acc

theorem openedKeys_append (a b : List FirewallAllowed) :
    openedKeys (a ++ b) = openedKeys a ++ openedKeys b := by
  simp [openedKeys]

theorem openedKeys_map_assoc (m : List (String × List String)) :
    openedKeys (m.map (fun g => { ipProtocol := g.1, ports := g.2 })) =
      assocKeys m := by
  induction m with
  | nil => rfl
  | cons g rest ih => simp [openedKeys, assocKeys, List.flatMap_cons] at *; rw [ih]

theorem mem_assocKeys_missingOpenedPorts (rule : Firewall) (ports : List String)
    (k : String) :
    k ∈ assocKeys (missingOpenedPorts rule ports) ↔
      ∃ p, p ∈ ports ∧ k = portKey p ∧ portKey p ∉ openedKeys rule.allowed := by
  rw [missingOpenedPorts, mem_assocKeys_missingFold]
  simp [assocKeys]

theorem missingOpenedPorts_eq_nil (rule : Firewall) (ports : List String)
    (h : ∀ p, p ∈ ports → portKey p ∈ openedKeys rule.allowed) :
    missingOpenedPorts rule ports = [] :=
  missingFold_of_all_opened (openedKeys rule.allowed) ports h []

end Google

/-- Google half of the reconciliation property.  Whenever
`openFirewallPorts` completes successfully (no skip flag, fetch succeeded
and returned rule state `fw`, desired port list `ps`), the resulting rule
state `fw'` (1) extends the pre-existing `Allowed` entries purely by
appending — no existing rule is edited or removed; hence (2) every
pre-existing (port, protocol) key survives; (3) every desired key is
present (`R' ⊇ R ∪ D`); (4) nothing beyond `R ∪ D` appears; and (5)
re-running the reconciler against `fw'` with the same desired set is a
no-op issuing zero mutating backend calls. -/
theorem google_openFirewallPorts_monotone_idempotent
    (fw fw' : Option Google.Firewall) (n : Nat) (swarmMaster : Bool)
    (swarmHost : String) (openPorts : List String) (ps : List String)
    (hports : Google.portsUsed swarmMaster swarmHost openPorts = some ps)
    (hrun : Google.openFirewallPorts false false fw swarmMaster swarmHost
      openPorts = some (Except.ok (fw', n))) :
    (∃ extra, Google.allowedOpt fw' = Google.allowedOpt fw ++ extra) ∧
    (∀ k, k ∈ Google.openedKeys (Google.allowedOpt fw) →
      k ∈ Google.openedKeys (Google.allowedOpt fw')) ∧
    (∀ p, p ∈ ps →
      Google.portKey p ∈ Google.openedKeys (Google.allowedOpt fw')) ∧
    (∀ k, k ∈ Google.openedKeys (Google.allowedOpt fw') →
      k ∈ Google.openedKeys (Google.allowedOpt fw) ∨
        ∃ p, p ∈ ps ∧ k = Google.portKey p) ∧
    Google.openFirewallPorts false false fw' swarmMaster swarmHost openPorts =
      some (Except.ok (fw', 0)) := by
  simp only [Google.openFirewallPorts, Bool.false_eq_true, if_false,
    hports] at hrun
  by_cases hm :
      Google.missingOpenedPorts ⟨Google.allowedOpt fw⟩ ps = []
  · simp only [hm, List.isEmpty_nil, if_true, Option.some.injEq,
      Except.ok.injEq, Prod.mk.injEq] at hrun
    obtain ⟨hfw, _⟩ := hrun
    subst hfw
    have hopened : ∀ p, p ∈ ps →
        Google.portKey p ∈ Google.openedKeys (Google.allowedOpt fw) := by
      intro p hp
      by_contra hno
      have hmem : Google.portKey p ∈
          Google.assocKeys
            (Google.missingOpenedPorts ⟨Google.allowedOpt fw⟩ ps) := by
        rw [Google.mem_assocKeys_missingOpenedPorts]
        exact ⟨p, hp, rfl, hno⟩
      rw [hm] at hmem
      simp [Google.assocKeys] at hmem
    refine ⟨⟨[], by simp⟩, fun k hk => hk, hopened, fun k hk => Or.inl hk, ?_⟩
    simp only [Google.openFirewallPorts, Bool.false_eq_true, if_false,
      hports, hm, List.isEmpty_nil, if_true]
  · simp only [List.isEmpty_iff, hm, if_false, Option.some.injEq,
      Except.ok.injEq, Prod.mk.injEq] at hrun
    obtain ⟨hfw, _⟩ := hrun
    subst hfw
    have hkeys : Google.openedKeys (Google.allowedOpt
        (some ⟨Google.allowedOpt fw ++
          (Google.missingOpenedPorts ⟨Google.allowedOpt fw⟩ ps).map
            (fun m => { ipProtocol := m.1, ports := m.2 })⟩)) =
        Google.openedKeys (Google.allowedOpt fw) ++
          Google.assocKeys
            (Google.missingOpenedPorts ⟨Google.allowedOpt fw⟩ ps) := by
      show Google.openedKeys (Google.allowedOpt fw ++ _) = _
      rw [Google.openedKeys_append, Google.openedKeys_map_assoc]
    refine ⟨⟨_, rfl⟩, ?_, ?_, ?_, ?_⟩
    · intro k hk
      rw [hkeys]
      exact List.mem_append.mpr (Or.inl hk)
    · intro p hp
      rw [hkeys]
      by_cases hin :
          Google.portKey p ∈ Google.openedKeys (Google.allowedOpt fw)
      · exact List.mem_append.mpr (Or.inl hin)
      · refine List.mem_append.mpr (Or.inr ?_)
        rw [Google.mem_assocKeys_missingOpenedPorts]
        exact ⟨p, hp, rfl, hin⟩
    · intro k hk
      rw [hkeys] at hk
      rcases List.mem_append.mp hk with h | h
      · exact Or.inl h
      · rw [Google.mem_assocKeys_missingOpenedPorts] at h
        obtain ⟨p, hp, hkp, _⟩ := h
        exact Or.inr ⟨p, hp, hkp⟩
    · have hall : ∀ p, p ∈ ps →
          Google.portKey p ∈ Google.openedKeys
            (Google.allowedOpt fw ++
              (Google.missingOpenedPorts ⟨Google.allowedOpt fw⟩ ps).map
                (fun m => { ipProtocol := m.1, ports := m.2 })) := by
        intro p hp
        rw [Google.openedKeys_append, Google.openedKeys_map_assoc]
        by_cases hin :
            Google.portKey p ∈ Google.openedKeys (Google.allowedOpt fw)
        · exact List.mem_append.mpr (Or.inl hin)
        · refine List.mem_append.mpr (Or.inr ?_)
          rw [Google.mem_assocKeys_missingOpenedPorts]
          exact ⟨p, hp, rfl, hin⟩
      have hmiss' : Google.missingOpenedPorts
          ⟨Google.allowedOpt fw ++
            (Google.missingOpenedPorts ⟨Google.allowedOpt fw⟩ ps).map
              (fun m => { ipProtocol := m.1, ports := m.2 })⟩ ps = [] :=
        Google.missingOpenedPorts_eq_nil _ ps hall
      simp only [Google.openFirewallPorts, Bool.false_eq_true, if_false,
        hports, Google.allowedOpt_some, hmiss', List.isEmpty_nil, if_true]

/-! ## Security reconciler: EC2 security groups (`amazonec2.go`) -/

namespace Amazonec2

/-- The `ipRange = "0.0.0.0/0"` constant of `amazonec2.go`. -/
def ipRange : String := "0.0.0.0/0"

/-- The fields of an `ec2.IpPermission` built or inspected by
`configureSecurityGroupPermissions`. -/
structure IpPermission where
  ipProtocol : String
  fromPort : Option Int
  toPort : Option Int
  ipRanges : List String
deriving DecidableEq, Repr

/-- The keys of the `hasPorts` map: `fmt.Sprintf("%d/%s", *p.FromPort,
*p.IpProtocol)` over every existing permission with a non-nil
`FromPort`. -/
def hasPortsKeys (perms : List IpPermission) : List String :=
  perms.flatMap (fun p =>
    match p.fromPort with
    | some fp => [toString fp ++ "/" ++ p.ipProtocol]
    | Option.none => [])

/-- An `ec2.IpPermission` as the code builds it: one protocol, equal
from/to port, world-open range. -/
def permFor (proto : String) (port : Int) : IpPermission :=
  ⟨proto, some port, some port, [ipRange]⟩

/-- The user open-port loop of `configureSecurityGroupPermissions`:
each entry is split by `driverutil.SplitPortProto`, its port parsed with
`strconv.ParseInt` (a parse failure aborts with
`"invalid port number …"`), and a permission is appended when the
`port/proto` key is not yet present. -/
def openPortPerms (hasPorts : List String) :
    List String → Except String (List IpPermission)
  | [] => Except.ok []
  | p :: rest =>
    match parseIntGo (SplitPortProto p).1 with
    | Option.none =>
      Except.error ("invalid port number " ++ (SplitPortProto p).1)
    | some portNum =>
      (openPortPerms hasPorts rest).map (fun ps =>
        if (SplitPortProto p).1 ++ "/" ++ (SplitPortProto p).2 ∈ hasPorts
        then ps
        else permFor (SplitPortProto p).2 portNum :: ps)

/-- `Driver.configureSecurityGroupPermissions` (`amazonec2.go`): under
`SecurityGroupReadOnly` no permissions are computed (skip mutation);
otherwise the missing entries among SSH port, docker control port 2376,
swarm port 3376 (when swarm master) and the user open ports are collected
in that order.  `sshPort`/`dockerPort`/`swarmPort` are the driver's
`d.BaseDriver.SSHPort` and the package variables `dockerPort = 2376`,
`swarmPort = 3376`. -/
def configureSecurityGroupPermissions (securityGroupReadOnly : Bool)
    (sshPort dockerPort swarmPort : Int) (swarmMaster : Bool)
    (openPorts : List String) (groupPerms : List IpPermission) :
    Except String (List IpPermission) :=
  if securityGroupReadOnly then Except.ok []
  else
    let hasPorts := hasPortsKeys groupPerms
    let base : List IpPermission :=
      (if toString sshPort ++ "/tcp" ∈ hasPorts then []
       else [permFor "tcp" sshPort]) ++
      (if toString dockerPort ++ "/tcp" ∈ hasPorts then []
       else [permFor "tcp" dockerPort]) ++
      (if toString swarmPort ++ "/tcp" ∉ hasPorts ∧ swarmMaster then
        [permFor "tcp" swarmPort]
       else [])
    (openPortPerms hasPorts openPorts).map (fun ps => base ++ ps)

theorem openPortPerms_nil_hasPorts (openPorts : List String)
    (f : String → Int)
    (hf : ∀ p, p ∈ openPorts → parseIntGo (SplitPortProto p).1 = some (f p)) :
    openPortPerms [] openPorts =
      Except.ok (openPorts.map
        (fun p => permFor (SplitPortProto p).2 (f p))) := by
  induction openPorts with
  | nil => rfl
  | cons q rest ih =>
    simp only [openPortPerms, hf q (List.mem_cons_self q rest),
      ih (fun p hp => hf p (List.mem_cons_of_mem q hp)),
      Except.map, List.not_mem_nil, if_false, List.map_cons]

end Amazonec2

/-- C6 counterexample: with its default ports (SSH 22, docker 2376, swarm
3376), no swarm mode, no user open ports and an empty pre-existing rule
set, the EC2 reconciler's desired permission set is
`{22/tcp, 2376/tcp}` — it also contains the SSH port 22, which is not in
the claimed set `{2376/tcp} ∪ ∅ ∪ ∅`. -/
theorem desired_ports_counterexample :
    Amazonec2.configureSecurityGroupPermissions false 22 2376 3376 false [] [] =
      Except.ok [Amazonec2.permFor "tcp" 22, Amazonec2.permFor "tcp" 2376] ∧
    (Amazonec2.permFor "tcp" 22).fromPort = some 22 ∧ (22 : Int) ≠ 2376 :=
  ⟨rfl, rfl, by decide⟩

/-- C6 amended: the Google reconciler's desired set is exactly
`{2376/tcp} ∪ {swarm-port/tcp when swarm master} ∪ parsed user open
ports`; the EC2 reconciler's desired set additionally contains the SSH
port — against an empty pre-existing rule set it computes exactly
`{sshPort/tcp, 2376/tcp} ∪ {3376/tcp when swarm master} ∪ parsed user
open ports`, in that order and nothing else. -/
theorem desired_ports_amended (openPorts : List String) (f : String → Int)
    (hf : ∀ p, p ∈ openPorts → parseIntGo (SplitPortProto p).1 = some (f p))
    (sshPort dockerPort swarmPort : Int) (swarmMaster : Bool)
    (swarmHost : String) (spd : List Char)
    (hsp : (splitOnChar ':' (urlHost swarmHost).data).get? 1 = some spd) :
    Google.portsUsed false swarmHost openPorts =
      some ("2376/tcp" :: openPorts.map Google.portKey) ∧
    Google.portsUsed true swarmHost openPorts =
      some ("2376/tcp" :: (spd.asString ++ "/tcp") ::
        openPorts.map Google.portKey) ∧
    Amazonec2.configureSecurityGroupPermissions false sshPort dockerPort
      swarmPort swarmMaster openPorts [] =
      Except.ok
        ((Amazonec2.permFor "tcp" sshPort :: Amazonec2.permFor "tcp" dockerPort ::
          (if swarmMaster then [Amazonec2.permFor "tcp" swarmPort] else [])) ++
         openPorts.map (fun p => Amazonec2.permFor (SplitPortProto p).2 (f p))) := by
  refine ⟨?_, ?_, ?_⟩
  · simp [Google.portsUsed, Google.dockerPort]
  · have hsp' : (splitOnChar ':' (urlHost swarmHost).data)[1]? = some spd := by
      simpa using hsp
    simp [Google.portsUsed, Google.dockerPort, hsp']
  · have hop := Amazonec2.openPortPerms_nil_hasPorts openPorts f hf
    simp only [Amazonec2.configureSecurityGroupPermissions,
      Bool.false_eq_true, if_false]
    simp [Amazonec2.hasPortsKeys, hop, Except.map]

/-- Witness for `desired_ports_amended` at one user port `8080/tcp` and a
swarm host carrying port `3376`. -/
theorem desired_ports_amended_witness :
    Google.portsUsed false "tcp://h:3376" ["8080/tcp"] =
      some ["2376/tcp", "8080/tcp"] :=
  (desired_ports_amended ["8080/tcp"] (fun _ => 8080)
    (by intro p hp; simp only [List.mem_singleton] at hp; subst hp; decide)
    22 2376 3376 false "tcp://h:3376" "3376".data (by decide)).1

/-! ## EC2 security-group reconciliation (`Driver.configureSecurityGroups`,
`amazonec2.go` lines 1202-1216, one group) -/

namespace Amazonec2

/-- One group's reconciliation step of `Driver.configureSecurityGroups`:
the group fetch/create is abstracted to the group's existing
`IpPermissions`; `configureSecurityGroupPermissions` computes the missing
permissions, and when that list is non-empty a single
`AuthorizeSecurityGroupIngress` call appends it (AWS ingress
authorization is additive: it never edits or removes existing rules).
Returns the group's resulting permission list and the number of mutating
backend calls issued. -/
def reconcileSecurityGroup (securityGroupReadOnly : Bool)
    (sshPort dockerPort swarmPort : Int) (swarmMaster : Bool)
    (openPorts : List String) (groupPerms : List IpPermission) :
    Except String (List IpPermission × Nat) :=
  match configureSecurityGroupPermissions securityGroupReadOnly sshPort
      dockerPort swarmPort swarmMaster openPorts groupPerms with
  | Except.error e => Except.error e
  | Except.ok perms =>
    if perms.isEmpty then Except.ok (groupPerms, 0)
    else Except.ok (groupPerms ++ perms, 1)

theorem hasPortsKeys_append (a b : List IpPermission) :
    hasPortsKeys (a ++ b) = hasPortsKeys a ++ hasPortsKeys b := by
  simp [hasPortsKeys]

theorem key_mem_hasPortsKeys {proto : String} {port : Int}
    {l : List IpPermission} (h : permFor proto port ∈ l) :
    toString port ++ "/" ++ proto ∈ hasPortsKeys l := by
  simp only [hasPortsKeys, List.mem_flatMap]
  exact ⟨permFor proto port, h, by simp [permFor]⟩

theorem openPortPerms_covers (hasPorts : List String)
    (openPorts : List String) (f : String → Int)
    (hf : ∀ p, p ∈ openPorts → parseIntGo (SplitPortProto p).1 = some (f p)) :
    ∃ l, openPortPerms hasPorts openPorts = Except.ok l ∧
      ∀ p, p ∈ openPorts →
        (SplitPortProto p).1 ++ "/" ++ (SplitPortProto p).2 ∈ hasPorts ∨
          permFor (SplitPortProto p).2 (f p) ∈ l := by
  induction openPorts with
  | nil => exact ⟨[], rfl, fun p hp => absurd hp (List.not_mem_nil p)⟩
  | cons a rest ih =>
    obtain ⟨l, hl, hcov⟩ := ih (fun p hp => hf p (List.mem_cons_of_mem a hp))
    by_cases hk :
        (SplitPortProto a).1 ++ "/" ++ (SplitPortProto a).2 ∈ hasPorts
    · refine ⟨l, ?_, ?_⟩
      · simp only [openPortPerms, hf a (List.mem_cons_self a rest), hl,
          Except.map, if_pos hk]
      · intro p hp
        rcases List.mem_cons.mp hp with h | h
        · subst h; exact Or.inl hk
        · exact hcov p h
    · refine ⟨permFor (SplitPortProto a).2 (f a) :: l, ?_, ?_⟩
      · simp only [openPortPerms, hf a (List.mem_cons_self a rest), hl,
          Except.map, if_neg hk]
      · intro p hp
        rcases List.mem_cons.mp hp with h | h
        · subst h; exact Or.inr (List.mem_cons_self _ _)
        · rcases hcov p h with h' | h'
          · exact Or.inl h'
          · exact Or.inr (List.mem_cons_of_mem _ h')

theorem openPortPerms_all_present (hasPorts : List String)
    (openPorts : List String) (f : String → Int)
    (hf : ∀ p, p ∈ openPorts → parseIntGo (SplitPortProto p).1 = some (f p))
    (hin : ∀ p, p ∈ openPorts →
      (SplitPortProto p).1 ++ "/" ++ (SplitPortProto p).2 ∈ hasPorts) :
    openPortPerms hasPorts openPorts = Except.ok [] := by
  induction openPorts with
  | nil => rfl
  | cons a rest ih =>
    simp only [openPortPerms, hf a (List.mem_cons_self a rest),
      ih (fun p hp => hf p (List.mem_cons_of_mem a hp))
        (fun p hp => hin p (List.mem_cons_of_mem a hp)),
      Except.map, if_pos (hin a (List.mem_cons_self a rest))]

theorem configureSecurityGroupPermissions_covers
    (sshPort dockerPort swarmPort : Int) (sm : Bool)
    (openPorts : List String) (f : String → Int)
    (hf : ∀ p, p ∈ openPorts → parseIntGo (SplitPortProto p).1 = some (f p))
    (G : List IpPermission) :
    ∃ perms,
      configureSecurityGroupPermissions false sshPort dockerPort swarmPort
        sm openPorts G = Except.ok perms ∧
      (toString sshPort ++ "/tcp" ∈ hasPortsKeys G ∨
        permFor "tcp" sshPort ∈ perms) ∧
      (toString dockerPort ++ "/tcp" ∈ hasPortsKeys G ∨
        permFor "tcp" dockerPort ∈ perms) ∧
      (sm = true → (toString swarmPort ++ "/tcp" ∈ hasPortsKeys G ∨
        permFor "tcp" swarmPort ∈ perms)) ∧
      (∀ p, p ∈ openPorts →
        (SplitPortProto p).1 ++ "/" ++ (SplitPortProto p).2 ∈ hasPortsKeys G ∨
          permFor (SplitPortProto p).2 (f p) ∈ perms) := by
  obtain ⟨l, hl, hcov⟩ := openPortPerms_covers (hasPortsKeys G) openPorts f hf
  refine ⟨((if toString sshPort ++ "/tcp" ∈ hasPortsKeys G then []
        else [permFor "tcp" sshPort]) ++
      (if toString dockerPort ++ "/tcp" ∈ hasPortsKeys G then []
        else [permFor "tcp" dockerPort]) ++
      (if toString swarmPort ++ "/tcp" ∉ hasPortsKeys G ∧ sm = true then
        [permFor "tcp" swarmPort] else [])) ++ l, ?_, ?_, ?_, ?_, ?_⟩
  · simp only [configureSecurityGroupPermissions, Bool.false_eq_true,
      if_false, hl, Except.map]
  · by_cases h : toString sshPort ++ "/tcp" ∈ hasPortsKeys G
    · exact Or.inl h
    · exact Or.inr (by simp [h])
  · by_cases h : toString dockerPort ++ "/tcp" ∈ hasPortsKeys G
    · exact Or.inl h
    · exact Or.inr (by simp [h])
  · intro hsm
    by_cases h : toString swarmPort ++ "/tcp" ∈ hasPortsKeys G
    · exact Or.inl h
    · exact Or.inr (by simp [h, hsm])
  · intro p hp
    rcases hcov p hp with h | h
    · exact Or.inl h
    · exact Or.inr (List.mem_append.mpr (Or.inr h))

/-- EC2 half of the reconciliation property.  Whenever
`reconcileSecurityGroup` completes successfully, the resulting group
permissions extend the existing ones purely by appending, every desired
key (SSH, docker, swarm when master, user ports) is present afterwards,
and — provided every user open-port string is in the canonical decimal
form its parsed value renders back to (`toString (f p) = port string`) —
re-running against the result issues zero mutating backend calls. -/
theorem reconcileSecurityGroup_monotone_idempotent
    (sshPort dockerPort swarmPort : Int) (sm : Bool)
    (openPorts : List String) (f : String → Int)
    (hf : ∀ p, p ∈ openPorts → parseIntGo (SplitPortProto p).1 = some (f p))
    (hcanon : ∀ p, p ∈ openPorts → toString (f p) = (SplitPortProto p).1)
    (G G' : List IpPermission) (m : Nat)
    (hrun : reconcileSecurityGroup false sshPort dockerPort swarmPort sm
      openPorts G = Except.ok (G', m)) :
    (∃ extra, G' = G ++ extra) ∧
    toString sshPort ++ "/tcp" ∈ hasPortsKeys G' ∧
    toString dockerPort ++ "/tcp" ∈ hasPortsKeys G' ∧
    (sm = true → toString swarmPort ++ "/tcp" ∈ hasPortsKeys G') ∧
    (∀ p, p ∈ openPorts →
      (SplitPortProto p).1 ++ "/" ++ (SplitPortProto p).2 ∈
        hasPortsKeys G') ∧
    reconcileSecurityGroup false sshPort dockerPort swarmPort sm openPorts
      G' = Except.ok (G', 0) := by
  obtain ⟨perms, hconf, hssh, hdocker, hswarm, huser⟩ :=
    configureSecurityGroupPermissions_covers sshPort dockerPort swarmPort
      sm openPorts f hf G
  simp only [reconcileSecurityGroup, hconf] at hrun
  have hslash : ∀ q : Int, (toString q ++ "/" ++ "tcp" : String) =
      toString q ++ "/tcp" := by
    intro q; rw [String.append_assoc]; rfl
  by_cases hp : perms = []
  · subst hp
    simp only [List.isEmpty_nil, if_true, Except.ok.injEq,
      Prod.mk.injEq] at hrun
    obtain ⟨hG, _⟩ := hrun
    subst hG
    have hssh' := hssh.resolve_right (List.not_mem_nil _)
    have hdocker' := hdocker.resolve_right (List.not_mem_nil _)
    have hswarm' := fun hsm =>
      (hswarm hsm).resolve_right (List.not_mem_nil _)
    have huser' := fun p hp' =>
      (huser p hp').resolve_right (List.not_mem_nil _)
    refine ⟨⟨[], by simp⟩, hssh', hdocker', hswarm', huser', ?_⟩
    simp only [reconcileSecurityGroup, hconf, List.isEmpty_nil, if_true]
  · simp only [List.isEmpty_iff, hp, if_false, Except.ok.injEq,
      Prod.mk.injEq] at hrun
    obtain ⟨hG, _⟩ := hrun
    subst hG
    have hH := hasPortsKeys_append G perms
    have hssh' : toString sshPort ++ "/tcp" ∈ hasPortsKeys (G ++ perms) := by
      rw [hH]
      rcases hssh with h | h
      · exact List.mem_append.mpr (Or.inl h)
      · refine List.mem_append.mpr (Or.inr ?_)
        have hm := key_mem_hasPortsKeys h
        rwa [hslash] at hm
    have hdocker' : toString dockerPort ++ "/tcp" ∈
        hasPortsKeys (G ++ perms) := by
      rw [hH]
      rcases hdocker with h | h
      · exact List.mem_append.mpr (Or.inl h)
      · refine List.mem_append.mpr (Or.inr ?_)
        have hm := key_mem_hasPortsKeys h
        rwa [hslash] at hm
    have hswarm' : sm = true → toString swarmPort ++ "/tcp" ∈
        hasPortsKeys (G ++ perms) := by
      intro hsm
      rw [hH]
      rcases hswarm hsm with h | h
      · exact List.mem_append.mpr (Or.inl h)
      · refine List.mem_append.mpr (Or.inr ?_)
        have hm := key_mem_hasPortsKeys h
        rwa [hslash] at hm
    have huser' : ∀ p, p ∈ openPorts →
        (SplitPortProto p).1 ++ "/" ++ (SplitPortProto p).2 ∈
          hasPortsKeys (G ++ perms) := by
      intro p hp'
      rw [hH]
      rcases huser p hp' with h | h
      · exact List.mem_append.mpr (Or.inl h)
      · refine List.mem_append.mpr (Or.inr ?_)
        have hm := key_mem_hasPortsKeys h
        rwa [hcanon p hp'] at hm
    have hl' := openPortPerms_all_present (hasPortsKeys (G ++ perms))
      openPorts f hf huser'
    have hconf' : configureSecurityGroupPermissions false sshPort dockerPort
        swarmPort sm openPorts (G ++ perms) = Except.ok [] := by
      simp only [configureSecurityGroupPermissions, Bool.false_eq_true,
        if_false, hl', Except.map, if_pos hssh', if_pos hdocker']
      rw [if_neg (show ¬(toString swarmPort ++ "/tcp" ∉
          hasPortsKeys (G ++ perms) ∧ sm = true) from
        fun h => h.1 (hswarm' h.2))]
      rfl
    refine ⟨⟨perms, rfl⟩, hssh', hdocker', hswarm', huser', ?_⟩
    simp only [reconcileSecurityGroup, hconf', List.isEmpty_nil, if_true]

end Amazonec2

/-- C2 counterexample: the EC2 reconciler is not idempotent for
non-canonical user port strings.  With desired set `D` containing
`08080/tcp`, the first run from an empty group appends the missing
permissions (SSH 22, docker 2376, port 8080) with one
`AuthorizeSecurityGroupIngress` call, yielding `R'` that contains all of
`D`; yet the re-run against `R'` with the same `D` again issues one
mutating call (not zero): the membership check compares the raw string
key `08080/tcp` against the `%d`-rendered key `8080/tcp` of the existing
rule and re-appends the 8080 permission. -/
theorem security_reconciliation_counterexample :
    Amazonec2.reconcileSecurityGroup false 22 2376 3376 false
      ["08080/tcp"] [] =
      Except.ok ([Amazonec2.permFor "tcp" 22, Amazonec2.permFor "tcp" 2376,
        Amazonec2.permFor "tcp" 8080], 1) ∧
    Amazonec2.reconcileSecurityGroup false 22 2376 3376 false
      ["08080/tcp"]
      [Amazonec2.permFor "tcp" 22, Amazonec2.permFor "tcp" 2376,
       Amazonec2.permFor "tcp" 8080] =
      Except.ok ([Amazonec2.permFor "tcp" 22, Amazonec2.permFor "tcp" 2376,
        Amazonec2.permFor "tcp" 8080, Amazonec2.permFor "tcp" 8080], 1) ∧
    (1 : Nat) ≠ 0 :=
  ⟨rfl, rfl, by decide⟩

/-- C2 amended: both reconcilers converge monotonically — a successful run
only appends the missing (port, protocol) rules, never editing or removing
an existing rule, and the result contains the pre-existing set and the
desired set.  Re-running with the same desired set issues zero mutating
backend calls: unconditionally for the Google firewall reconciler, and for
the EC2 security-group reconciler provided every user open-port string is
in canonical decimal form (for non-canonical strings such as `08080/tcp`
the EC2 re-run re-issues an authorize call, per the counterexample). -/
theorem security_reconciliation_amended
    (fw fw' : Option Google.Firewall) (n : Nat) (gsm : Bool)
    (gswarmHost : String) (gOpenPorts ps : List String)
    (hports : Google.portsUsed gsm gswarmHost gOpenPorts = some ps)
    (hrun : Google.openFirewallPorts false false fw gsm gswarmHost
      gOpenPorts = some (Except.ok (fw', n)))
    (sshPort dockerPort swarmPort : Int) (asm : Bool)
    (aOpenPorts : List String) (f : String → Int)
    (hf : ∀ p, p ∈ aOpenPorts → parseIntGo (SplitPortProto p).1 = some (f p))
    (hcanon : ∀ p, p ∈ aOpenPorts → toString (f p) = (SplitPortProto p).1)
    (G G' : List Amazonec2.IpPermission) (m : Nat)
    (hrunA : Amazonec2.reconcileSecurityGroup false sshPort dockerPort
      swarmPort asm aOpenPorts G = Except.ok (G', m)) :
    ((∃ extra, Google.allowedOpt fw' = Google.allowedOpt fw ++ extra) ∧
     (∀ k, k ∈ Google.openedKeys (Google.allowedOpt fw) →
       k ∈ Google.openedKeys (Google.allowedOpt fw')) ∧
     (∀ p, p ∈ ps →
       Google.portKey p ∈ Google.openedKeys (Google.allowedOpt fw')) ∧
     (∀ k, k ∈ Google.openedKeys (Google.allowedOpt fw') →
       k ∈ Google.openedKeys (Google.allowedOpt fw) ∨
         ∃ p, p ∈ ps ∧ k = Google.portKey p) ∧
     Google.openFirewallPorts false false fw' gsm gswarmHost gOpenPorts =
       some (Except.ok (fw', 0))) ∧
    ((∃ extra, G' = G ++ extra) ∧
     toString sshPort ++ "/tcp" ∈ Amazonec2.hasPortsKeys G' ∧
     toString dockerPort ++ "/tcp" ∈ Amazonec2.hasPortsKeys G' ∧
     (asm = true → toString swarmPort ++ "/tcp" ∈ Amazonec2.hasPortsKeys G') ∧
     (∀ p, p ∈ aOpenPorts →
       (SplitPortProto p).1 ++ "/" ++ (SplitPortProto p).2 ∈
         Amazonec2.hasPortsKeys G') ∧
     Amazonec2.reconcileSecurityGroup false sshPort dockerPort swarmPort
       asm aOpenPorts G' = Except.ok (G', 0)) :=
  ⟨google_openFirewallPorts_monotone_idempotent fw fw' n gsm gswarmHost
     gOpenPorts ps hports hrun,
   Amazonec2.reconcileSecurityGroup_monotone_idempotent sshPort dockerPort
     swarmPort asm aOpenPorts f hf hcanon G G' m hrunA⟩

/-- Witness for `security_reconciliation_amended`: Google — existing rule
set `{1000/tcp}`, desired `{2376/tcp, 8080/tcp}`; EC2 — empty group,
canonical user port `8080/tcp`, first run appends `{22, 2376, 8080}/tcp`
with one authorize call; the extracted conclusion shows the EC2 re-run
against that state issues zero mutating calls. -/
theorem security_reconciliation_amended_witness :
    Amazonec2.reconcileSecurityGroup false 22 2376 3376 false ["8080/tcp"]
      [Amazonec2.permFor "tcp" 22, Amazonec2.permFor "tcp" 2376,
       Amazonec2.permFor "tcp" 8080] =
      Except.ok ([Amazonec2.permFor "tcp" 22, Amazonec2.permFor "tcp" 2376,
        Amazonec2.permFor "tcp" 8080], 0) :=
  (security_reconciliation_amended
    (some ⟨[⟨"tcp", ["1000"]⟩]⟩)
    (some ⟨[⟨"tcp", ["1000"]⟩, ⟨"tcp", ["2376", "8080"]⟩]⟩) 1 false ""
    ["8080/tcp"] ["2376/tcp", "8080/tcp"] rfl rfl
    22 2376 3376 false ["8080/tcp"] (fun _ => 8080)
    (by intro p hp; simp only [List.mem_singleton] at hp; subst hp; decide)
    (by intro p hp; simp only [List.mem_singleton] at hp; subst hp; decide)
    [] [Amazonec2.permFor "tcp" 22, Amazonec2.permFor "tcp" 2376,
        Amazonec2.permFor "tcp" 8080] 1 rfl).2.2.2.2.2.2

end DockerMachine
